import Mathlib

/-!
Shallow embedding of the omegle-in-rust session coordinator
(src/server.rs).  The coordinator owns four pieces of state: the
registered outbound routes (sessions), the user sessions, the
per-preference waiting pools and the group registry.  Rust HashMaps are
modelled as association lists with first-match lookup; every mutation of
the Rust code is mirrored by an explicit state-passing function that also
returns the list of outbound notifications it emitted, in emission order.
Randomness (rand::random, gen_range) is made explicit as extra Nat
parameters; the Rust panic in Command::JoinChat is modelled by an Option
result.
-/

namespace Omegle

abbrev ConnId := String
abbrev RoomId := String

/-- Message payload: opaque ciphertext plus nonce (src/server.rs lines 14-18). -/
structure EncryptedMessage where
  encrypted : String
  nonce : String
deriving DecidableEq, Repr

/-- Profile carried by a join command (src/server.rs lines 20-29). -/
structure UserProfile where
  user_id : String
  username : String
  preference : String
  gender : String
  room_type : String
  group_code : Option String
  group_join_method : Option String
deriving DecidableEq, Repr

/-- One user session (src/server.rs lines 32-42). -/
structure User where
  id : ConnId
  user_id : String
  username : String
  gender : String
  preference : String
  room_type : String
  partner_id : Option ConnId
  group_id : Option RoomId
deriving DecidableEq, Repr

/-- One group: code plus the parallel member and display-name lists
(src/server.rs lines 44-48). -/
structure Group where
  code : RoomId
  members : List ConnId
  usernames : List String
deriving DecidableEq, Repr

/-- Outbound notifications the coordinator can emit, each tagged with the
connection it is addressed to (the ServerEvent values of src/server.rs). -/
inductive Event where
  | waiting_for_match (dest : ConnId)
  | chat_started (dest : ConnId) (groupCode : Option String)
  | partner_disconnected (dest : ConnId)
  | group_members_update (dest : ConnId) (names : List String)
  | user_joined_group (dest : ConnId) (name : String)
  | user_left_group (dest : ConnId) (name : String)
  | group_not_found (dest : ConnId)
  | receive_message (dest : ConnId) (message : EncryptedMessage) (sender : String)
deriving DecidableEq, Repr

/-- Coordinator state (src/server.rs lines 97-102).  `sessions` keeps only
the set of connection ids that have a registered outbound route; the
channel itself is irrelevant to the state transitions. -/
structure ChatServer where
  sessions : List ConnId
  users : List (ConnId × User)
  waiting_users : List (String × List ConnId)
  groups : List (RoomId × Group)
deriving DecidableEq, Repr

/-- HashMap::get on an association list: first entry with the given key. -/
def aget (m : List (String × α)) (k : String) : Option α :=
  match m with
  | [] => none
  | (k1, v) :: rest => if k1 = k then some v else aget rest k

/-- HashMap::insert: replace the value at the key, or append a new entry. -/
def aset (m : List (String × α)) (k : String) (v : α) : List (String × α) :=
  match m with
  | [] => [(k, v)]
  | (k1, v1) :: rest => if k1 = k then (k1, v) :: rest else (k1, v1) :: aset rest k v

/-- HashMap::get_mut followed by a mutation: update the value at the key
if present, otherwise leave the map unchanged. -/
def aupdate (m : List (String × α)) (k : String) (f : α → α) : List (String × α) :=
  match m with
  | [] => []
  | (k1, v) :: rest => if k1 = k then (k1, f v) :: rest else (k1, v) :: aupdate rest k f

/-- HashMap::remove: drop the entry with the given key. -/
def aerase (m : List (String × α)) (k : String) : List (String × α) :=
  match m with
  | [] => []
  | (k1, v) :: rest => if k1 = k then rest else (k1, v) :: aerase rest k

/-- Mutate every value of the map (HashMap::values_mut iteration). -/
def amap (m : List (String × α)) (f : α → α) : List (String × α) :=
  m.map (fun p => (p.1, f p.2))

/-- Sending on a connection's outbound route: delivered only when the
connection has a registered session, silently dropped otherwise
(every `if let Some(tx) = self.sessions.get(..)` in src/server.rs). -/
def emit (s : ChatServer) (conn : ConnId) (e : Event) : List Event :=
  if conn ∈ s.sessions then [e] else []

/-- Purge a connection id from every waiting pool
(src/server.rs lines 174-176 and 221-223). -/
def purgeWaiting (w : List (String × List ConnId)) (conn : ConnId) :
    List (String × List ConnId) :=
  amap w (fun l => l.filter (fun id => id != conn))

/-- generate_group_code (src/server.rs lines 126-129): six draws from
0..36, each rendered with .to_string() — i.e. its DECIMAL representation
(one or two characters) — then uppercased, which is the identity on
decimal digits, and concatenated.  The six random draws are the `draws`
argument. -/
def generate_group_code (draws : List Nat) : String :=
  String.join (draws.map (fun d => Nat.repr d))

/-- Draw lists generate_group_code can actually receive from the Rust
generator: exactly six values, each from gen_range(0..36). -/
def validDraws (draws : List Nat) : Prop :=
  draws.length = 6 ∧ ∀ d ∈ draws, d < 36

/-- handle_disconnect (src/server.rs lines 131-177): remove the user
session; if grouped, drop it from the member/name lists (deleting the
group when the member list empties, otherwise broadcasting user_left_group
and group_members_update to the remaining members); if 1:1, notify the
partner and clear the partner's partner reference; finally purge the
connection from every waiting pool. -/
def handle_disconnect (s : ChatServer) (conn : ConnId) : ChatServer × List Event :=
  let step :=
    match aget s.users conn with
    | none => (s, ([] : List Event))
    | some user =>
      let s0 : ChatServer := { s with users := aerase s.users conn }
      if user.room_type = "group" then
        match user.group_id with
        | none => (s0, [])
        | some gid =>
          match aget s0.groups gid with
          | none => (s0, [])
          | some g =>
            let g1 : Group := { g with
              members := g.members.filter (fun id => id != conn),
              usernames := g.usernames.filter (fun n => n != user.username) }
            if g1.members.isEmpty then
              ({ s0 with groups := aerase s0.groups gid }, [])
            else
              let s1 : ChatServer := { s0 with groups := aset s0.groups gid g1 }
              (s1, g1.members.flatMap (fun m =>
                emit s1 m (Event.user_left_group m user.username) ++
                emit s1 m (Event.group_members_update m g1.usernames)))
      else
        match user.partner_id with
        | none => (s0, [])
        | some pid =>
          let evs := emit s0 pid (Event.partner_disconnected pid)
          ({ s0 with
              users := aupdate s0.users pid (fun p => { p with partner_id := none }) },
           evs)
  ({ step.1 with waiting_users := purgeWaiting step.1.waiting_users conn }, step.2)

/-- The gender test of the matchmaking filter (src/server.rs lines 186-190). -/
def genderOk (preference gender : String) : Bool :=
  if preference = "male" then gender = "male"
  else if preference = "female" then gender = "female"
  else false

/-- The eligible-candidate list of find_match (src/server.rs lines 182-195):
the waiting pool keyed by the preference, keeping only ids whose user
session exists and whose recorded gender passes genderOk. -/
def matchPool (s : ChatServer) (preference : String) : List ConnId :=
  ((aget s.waiting_users preference).getD []).filter (fun id =>
    match aget s.users id with
    | some pm => genderOk preference pm.gender
    | none => false)

/-- connect_users (src/server.rs lines 214-238): set the two partner
references, purge both ids from every waiting pool and send chat_started
to each of the two. -/
def connect_users (s : ChatServer) (user1_id user2_id : ConnId) :
    ChatServer × List Event :=
  let us1 := aupdate s.users user1_id (fun u => { u with partner_id := some user2_id })
  let us2 := aupdate us1 user2_id (fun u => { u with partner_id := some user1_id })
  let w := amap s.waiting_users
    (fun l => l.filter (fun id => id != user1_id && id != user2_id))
  let s1 : ChatServer := { s with users := us2, waiting_users := w }
  (s1, emit s1 user1_id (Event.chat_started user1_id none) ++
       emit s1 user2_id (Event.chat_started user2_id none))

/-- find_match (src/server.rs lines 179-212): if the eligible pool is
nonempty, pick the element at rand % len and pair with it; otherwise
append the asker to its own preference's pool and notify waiting_for_match.
`r` stands for the rand::random draw. -/
def find_match (s : ChatServer) (conn : ConnId) (r : Nat) : ChatServer × List Event :=
  match aget s.users conn with
  | none => (s, [])
  | some user =>
    let pool := matchPool s user.preference
    if pool.isEmpty then
      let w := aset s.waiting_users user.preference
        (((aget s.waiting_users user.preference).getD []) ++ [conn])
      let s1 : ChatServer := { s with waiting_users := w }
      (s1, emit s1 conn (Event.waiting_for_match conn))
    else
      connect_users s conn (pool.getD (r % pool.length) "")

/-- create_new_group (src/server.rs lines 240-264): make a group with the
caller as sole member under a freshly generated code, record the caller's
group id, send chat_started{code} and a singleton membership snapshot.
`draws` are the six random draws of the code generator. -/
def create_new_group (s : ChatServer) (conn : ConnId) (draws : List Nat) :
    ChatServer × List Event :=
  let code := generate_group_code draws
  match aget s.users conn with
  | none => (s, [])
  | some user =>
    let g : Group := { code := code, members := [conn], usernames := [user.username] }
    let s1 : ChatServer := { s with
      groups := aset s.groups code g,
      users := aupdate s.users conn (fun u => { u with group_id := some code }) }
    (s1, emit s1 conn (Event.chat_started conn (some code)) ++
         emit s1 conn (Event.group_members_update conn [user.username]))

/-- join_group_by_code (src/server.rs lines 266-305): unknown code sends
group_not_found to the caller; known code appends the caller to the member
and name lists, records the caller's group id, then for every member (in
list order) sends the updated membership snapshot plus, to members other
than the caller, user_joined_group, and finally chat_started{code} to the
caller. -/
def join_group_by_code (s : ChatServer) (conn : ConnId) (group_code : String) :
    ChatServer × List Event :=
  match aget s.groups group_code with
  | some g =>
    match aget s.users conn with
    | none => (s, [])
    | some user =>
      let g1 : Group := { g with
        members := g.members ++ [conn],
        usernames := g.usernames ++ [user.username] }
      let s1 : ChatServer := { s with
        groups := aset s.groups group_code g1,
        users := aupdate s.users conn (fun u => { u with group_id := some group_code }) }
      let evs := g1.members.flatMap (fun m =>
        if m ∈ s1.sessions then
          Event.group_members_update m g1.usernames ::
          (if m ≠ conn then [Event.user_joined_group m user.username] else [])
        else [])
      (s1, evs ++ emit s1 conn (Event.chat_started conn (some group_code)))
  | none => (s, emit s conn (Event.group_not_found conn))

/-- join_random_group (src/server.rs lines 307-322): pick a non-empty
group at rand % count and join it by code, or create a new group when
none exists. -/
def join_random_group (s : ChatServer) (conn : ConnId) (r : Nat) (draws : List Nat) :
    ChatServer × List Event :=
  let avail := (s.groups.filter (fun p => !p.2.members.isEmpty)).map (fun p => p.2.code)
  if avail.isEmpty then create_new_group s conn draws
  else join_group_by_code s conn (avail.getD (r % avail.length) "")

/-- The Rust byte slice profile.user_id[..5] (src/server.rs line 339):
the first five bytes, PANICKING (none) when user_id is shorter than five
bytes.  Modelled over strings whose character and byte counts agree. -/
def sliceTo5 (s : String) : Option String :=
  if s.length < 5 then none else some (s.take 5)

/-- The username chosen by Command::JoinChat (src/server.rs line 339):
the profile's username, or, when it is empty, "User-" followed by the
first five bytes of user_id — which panics on a short user_id. -/
def makeUsername (p : UserProfile) : Option String :=
  if p.username = "" then (sliceTo5 p.user_id).map (fun t => "User-" ++ t)
  else some p.username

/-- Command::JoinChat (src/server.rs lines 335-359): build the User (none
when the username fallback panics, which aborts the coordinator task),
insert it, then dispatch: room_type "group" goes to create / join-by-code /
random by group_join_method (default "random"), anything else goes to
matchmaking. -/
def joinChat (s : ChatServer) (conn : ConnId) (p : UserProfile) (r : Nat)
    (draws : List Nat) : Option (ChatServer × List Event) :=
  match makeUsername p with
  | none => none
  | some uname =>
    let user : User := {
      id := conn, user_id := p.user_id, username := uname,
      gender := p.gender, preference := p.preference, room_type := p.room_type,
      partner_id := none, group_id := none }
    let s1 : ChatServer := { s with users := aset s.users conn user }
    if p.room_type = "group" then
      let jm := p.group_join_method.getD "random"
      if jm = "create" then some (create_new_group s1 conn draws)
      else if jm = "join" ∧ p.group_code.isSome then
        some (join_group_by_code s1 conn (p.group_code.getD ""))
      else some (join_random_group s1 conn r draws)
    else some (find_match s1 conn r)

/-- Command::SendMessage (src/server.rs lines 361-399): no-op for an
unknown sender; group mode resolves the target group as the explicit
group_code override, falling back to the sender's own group id, and
relays to every member other than the sender; 1:1 mode relays to the
current partner; both fall through silently when nothing resolves. -/
def sendMessage (s : ChatServer) (conn : ConnId) (message : EncryptedMessage)
    (is_group_chat : Bool) (group_code : Option String) : ChatServer × List Event :=
  match aget s.users conn with
  | none => (s, [])
  | some user =>
    if is_group_chat then
      match group_code.or user.group_id with
      | none => (s, [])
      | some gid =>
        match aget s.groups gid with
        | none => (s, [])
        | some g =>
          (s, g.members.flatMap (fun m =>
            if m ≠ conn then emit s m (Event.receive_message m message user.username)
            else []))
    else
      match user.partner_id with
      | none => (s, [])
      | some pid => (s, emit s pid (Event.receive_message pid message user.username))

/-!  Concrete command sequences exercising the coordinator, used by the
claim theorems below.  All start from a state with two or three
registered, not yet joined connections. -/

/-- Fresh state: connections "A" and "B" registered, nothing else. -/
def twoConnState : ChatServer :=
  { sessions := ["A", "B"], users := [], waiting_users := [], groups := [] }

/-- Profile of a user displaying as "bob" who creates a group. -/
def bobCreates : UserProfile :=
  { user_id := "userA1", username := "bob", preference := "", gender := "",
    room_type := "group", group_code := none, group_join_method := some "create" }

/-- Profile of a second, distinct user also displaying as "bob" who joins
group 111111 by code. -/
def bobJoins : UserProfile :=
  { user_id := "userB1", username := "bob", preference := "", gender := "",
    room_type := "group", group_code := some "111111", group_join_method := some "join" }

/-- Run for C1: "A" creates group 111111 (all six code draws are 1), "B"
joins it by code, then "A" disconnects. -/
def sameNameFinal : ChatServer :=
  match (joinChat twoConnState "A" bobCreates 0 [1, 1, 1, 1, 1, 1]).bind
      (fun r => joinChat r.1 "B" bobJoins 0 []) with
  | some r => (handle_disconnect r.1 "A").1
  | none => twoConnState

/-- Profile with an empty display name and a three-byte user id. -/
def shortIdProfile : UserProfile :=
  { user_id := "abc", username := "", preference := "any", gender := "any",
    room_type := "1:1", group_code := none, group_join_method := none }

/-- First join of the C4 run: preference "male", gender "female". -/
def aliceFirst : UserProfile :=
  { user_id := "userAAA", username := "alice", preference := "male", gender := "female",
    room_type := "1:1", group_code := none, group_join_method := none }

/-- Second join of the C4 run by the same connection: preference "female". -/
def aliceSecond : UserProfile :=
  { user_id := "userAAA", username := "alice", preference := "female", gender := "female",
    room_type := "1:1", group_code := none, group_join_method := none }

/-- Run for C4: connection "A" joins 1:1 twice with different preferences,
finding no candidate either time. -/
def rejoinFinal : ChatServer :=
  match (joinChat twoConnState "A" aliceFirst 0 []).bind
      (fun r => joinChat r.1 "A" aliceSecond 0 []) with
  | some r => r.1
  | none => twoConnState

/-!  Concrete witness states for the confirmed claims. -/

/-- A 1:1 user session for connection "A" preferring "male". -/
def wUserA : User :=
  { id := "A", user_id := "ida", username := "alice", gender := "female",
    preference := "male", room_type := "1:1", partner_id := none, group_id := none }

/-- Witness state for C5: "A" joined 1:1, all waiting pools empty. -/
def wFive : ChatServer :=
  { sessions := ["A", "B"], users := [("A", wUserA)], waiting_users := [], groups := [] }

/-- A 1:1 user session for connection "B" of gender "male". -/
def wUserB : User :=
  { id := "B", user_id := "idb", username := "bob", gender := "male",
    preference := "female", room_type := "1:1", partner_id := none, group_id := none }

/-- Witness state for C6: "B" waits in the "male" pool, "A" asks for "male". -/
def wSix : ChatServer :=
  { sessions := ["A", "B"], users := [("A", wUserA), ("B", wUserB)],
    waiting_users := [("male", ["B"])], groups := [] }

/-- Witness state for C7: "A" and "B" are 1:1 partners. -/
def wSeven : ChatServer :=
  { sessions := ["A", "B"],
    users := [("A", { wUserA with partner_id := some "B" }),
              ("B", { wUserB with partner_id := some "A" })],
    waiting_users := [], groups := [] }

/-- Witness state for C8: "A" joined, group GGG exists with sole member "B". -/
def wEight : ChatServer :=
  { sessions := ["A", "B"], users := [("A", wUserA)], waiting_users := [],
    groups := [("GGG", { code := "GGG", members := ["B"], usernames := ["bob"] })] }

/-- Witness state for C9: "A" is 1:1-partnered with "B". -/
def wNine : ChatServer :=
  { sessions := ["A", "B"],
    users := [("A", { wUserA with partner_id := some "B" })],
    waiting_users := [], groups := [] }

/-- Witness state for C10: "A" joined but is no member of group GGG, whose
members are "B" and "C". -/
def wTen : ChatServer :=
  { sessions := ["A", "B", "C"], users := [("A", wUserA)], waiting_users := [],
    groups := [("GGG", { code := "GGG", members := ["B", "C"],
                         usernames := ["bob", "carol"] })] }

/-- A fixed opaque payload for the message-relay witnesses. -/
def wMsg : EncryptedMessage := { encrypted := "ct", nonce := "n1" }

/-!  Association-list lemmas. -/

theorem aget_aset_self (m : List (String × α)) (k : String) (v : α) :
    aget (aset m k v) k = some v := by
  induction m with
  | nil => simp [aset, aget]
  | cons p rest ih =>
    obtain ⟨k1, v1⟩ := p
    by_cases h : k1 = k
    · simp [aset, aget, h]
    · simp [aset, aget, h, ih]

theorem aget_aset_ne (m : List (String × α)) (k k1 : String) (v : α) (h : k ≠ k1) :
    aget (aset m k v) k1 = aget m k1 := by
  induction m with
  | nil => simp [aset, aget, h]
  | cons p rest ih =>
    obtain ⟨k2, v2⟩ := p
    by_cases h2 : k2 = k
    · subst h2; simp [aset, aget, h]
    · simp [aset, aget, h2, ih]

theorem aget_aupdate_self (m : List (String × α)) (k : String) (f : α → α) :
    aget (aupdate m k f) k = (aget m k).map f := by
  induction m with
  | nil => simp [aupdate, aget]
  | cons p rest ih =>
    obtain ⟨k1, v1⟩ := p
    by_cases h : k1 = k
    · simp [aupdate, aget, h]
    · simp [aupdate, aget, h, ih]

theorem aget_aupdate_ne (m : List (String × α)) (k k1 : String) (f : α → α)
    (h : k ≠ k1) : aget (aupdate m k f) k1 = aget m k1 := by
  induction m with
  | nil => simp [aupdate, aget]
  | cons p rest ih =>
    obtain ⟨k2, v2⟩ := p
    by_cases h2 : k2 = k
    · subst h2; simp [aupdate, aget, h]
    · simp [aupdate, aget, h2, ih]

theorem aget_aerase_ne (m : List (String × α)) (k k1 : String) (h : k ≠ k1) :
    aget (aerase m k) k1 = aget m k1 := by
  induction m with
  | nil => simp [aerase, aget]
  | cons p rest ih =>
    obtain ⟨k2, v2⟩ := p
    by_cases h2 : k2 = k
    · subst h2; simp [aerase, aget, h]
    · simp [aerase, aget, h2, ih]

theorem aget_amap (m : List (String × α)) (f : α → α) (k : String) :
    aget (amap m f) k = (aget m k).map f := by
  induction m with
  | nil => simp [amap, aget]
  | cons p rest ih =>
    obtain ⟨k1, v1⟩ := p
    by_cases h : k1 = k
    · simp [amap, aget, h]
    · simpa [amap, aget, h] using ih

/-!  Behavioral helper lemmas. -/

theorem genderOk_iff (p g : String) :
    genderOk p g = true ↔
      ((p = "male" ∧ g = "male") ∨ (p = "female" ∧ g = "female")) := by
  unfold genderOk
  by_cases h1 : p = "male"
  · simp [h1]
  · by_cases h2 : p = "female" <;> simp [h1, h2]

theorem mem_purgeWaiting (w : List (String × List ConnId)) (conn : ConnId)
    (pref : String) (x : ConnId) :
    x ∈ (aget (purgeWaiting w conn) pref).getD [] ↔
      x ∈ (aget w pref).getD [] ∧ x ≠ conn := by
  rw [purgeWaiting, aget_amap]
  cases aget w pref with
  | none => simp
  | some l => simp [List.mem_filter]

theorem connect_users_state (s : ChatServer) (a b : ConnId) :
    (connect_users s a b).1 =
      { s with
        users := aupdate (aupdate s.users a (fun u => { u with partner_id := some b }))
          b (fun u => { u with partner_id := some a }),
        waiting_users := amap s.waiting_users
          (fun l => l.filter (fun id => id != a && id != b)) } := rfl

theorem connect_users_events (s : ChatServer) (a b : ConnId)
    (ha : a ∈ s.sessions) (hb : b ∈ s.sessions) :
    (connect_users s a b).2 =
      [Event.chat_started a none, Event.chat_started b none] := by
  simp [connect_users, emit, ha, hb]

theorem mem_connect_pools (s : ChatServer) (a b : ConnId) (pref : String) (x : ConnId) :
    x ∈ (aget (connect_users s a b).1.waiting_users pref).getD [] ↔
      x ∈ (aget s.waiting_users pref).getD [] ∧ x ≠ a ∧ x ≠ b := by
  rw [connect_users_state]
  show x ∈ (aget (amap s.waiting_users _) pref).getD [] ↔ _
  rw [aget_amap]
  cases aget s.waiting_users pref with
  | none => simp
  | some l => simp [List.mem_filter, and_assoc]

theorem flatMap_sessions_all {sess : List ConnId} (l : List ConnId)
    (f : ConnId → List Event) (h : ∀ m ∈ l, m ∈ sess) :
    (l.flatMap fun m => if m ∈ sess then f m else []) = l.flatMap f := by
  induction l with
  | nil => rfl
  | cons x xs ih =>
    have hx : x ∈ sess := h x (List.mem_cons_self x xs)
    rw [List.flatMap_cons, List.flatMap_cons, if_pos hx,
      ih (fun m hm => h m (List.mem_cons_of_mem x hm))]

theorem flatMap_deliver {sess : List ConnId} (l : List ConnId) (conn : ConnId)
    (f : ConnId → Event) (h : ∀ m ∈ l, m ∈ sess) :
    (l.flatMap fun m => if m ≠ conn then (if m ∈ sess then [f m] else []) else []) =
      (l.filter fun m => m != conn).map f := by
  induction l with
  | nil => rfl
  | cons x xs ih =>
    have hx : x ∈ sess := h x (List.mem_cons_self x xs)
    have ih2 := ih (fun m hm => h m (List.mem_cons_of_mem x hm))
    by_cases hc : x = conn
    · subst hc
      rw [List.flatMap_cons, List.filter_cons, if_neg (by simp), if_neg (by simp),
        List.nil_append, ih2]
    · rw [List.flatMap_cons, List.filter_cons, if_pos hc, if_pos hx,
        if_pos (by simp [hc]), List.map_cons, List.singleton_append, ih2]

/-- C1: the claim that every reachable state keeps each group's member and
display-name lists of equal length FAILS on the code: handle_disconnect
removes usernames by value, so when two distinct members share the display
name "bob" and one disconnects, both name entries disappear but only one
member entry does.  After the concrete run sameNameFinal (create group
111111, second "bob" joins, first "bob" disconnects) the group holds one
member and zero display names. -/
theorem C1_group_lists_unequal :
    validDraws [1, 1, 1, 1, 1, 1] ∧
    (aget sameNameFinal.groups "111111").map
      (fun g => (g.members.length, g.usernames.length)) = some (1, 0) := by
  constructor
  · constructor
    · rfl
    · intro d hd
      simp only [List.mem_cons, List.not_mem_nil, or_false] at hd
      rcases hd with h | h | h | h | h | h <;> simp [h]
  · rfl

/-- C2: the claim that no join input can abort the coordinator FAILS on
the code: with an empty display name and the three-byte user id "abc",
Command::JoinChat evaluates the byte slice user_id[..5], which panics and
kills the coordinator task (modelled as the none result of joinChat). -/
theorem C2_join_aborts :
    joinChat twoConnState "A" shortIdProfile 0 [] = none := rfl

/-- C3: the claim that every generated group code has one fixed length
FAILS on the code: each of the six draws from 0..36 is rendered as its
decimal string, one character for 0..9 and two for 10..35, so six draws of
1 give a six-character code while six draws of 10 give twelve characters.
Both draw lists are values the Rust generator can produce. -/
theorem C3_code_length_varies :
    validDraws [1, 1, 1, 1, 1, 1] ∧ validDraws [10, 10, 10, 10, 10, 10] ∧
    (generate_group_code [1, 1, 1, 1, 1, 1]).length = 6 ∧
    (generate_group_code [10, 10, 10, 10, 10, 10]).length = 12 := by
  refine ⟨⟨rfl, ?_⟩, ⟨rfl, ?_⟩, rfl, rfl⟩ <;>
    · intro d hd
      simp only [List.mem_cons, List.not_mem_nil, or_false] at hd
      rcases hd with h | h | h | h | h | h <;> simp [h]

/-- C4: the claim that a connection id sits in at most one waiting pool /
pairing / group FAILS on the code: a join command never purges earlier
waiting-pool entries, so after connection "A" joins 1:1 with preference
"male" (no candidate) and then joins again with preference "female" (no
candidate), "A" sits in both the "male" and the "female" pool at once. -/
theorem C4_waiting_in_two_pools :
    aget rejoinFinal.waiting_users "male" = some ["A"] ∧
    aget rejoinFinal.waiting_users "female" = some ["A"] := by
  exact ⟨rfl, rfl⟩

/-- C5: for a joining 1:1 user, the candidate list is exactly the waiting
pool keyed by the asker's preference restricted to connections whose
recorded gender satisfies that preference (preference "male" requires
gender "male", "female" requires "female", anything else admits nobody);
and when that list is empty, find_match appends the asker to its own
preference's pool and emits exactly one waiting_for_match notification. -/
theorem C5_matchmaking (s : ChatServer) (conn : ConnId) (u : User) (r : Nat)
    (hu : aget s.users conn = some u) (hs : conn ∈ s.sessions) :
    (∀ id, id ∈ matchPool s u.preference ↔
      (id ∈ (aget s.waiting_users u.preference).getD [] ∧
       ∃ pm, aget s.users id = some pm ∧
         ((u.preference = "male" ∧ pm.gender = "male") ∨
          (u.preference = "female" ∧ pm.gender = "female")))) ∧
    (matchPool s u.preference = [] →
      find_match s conn r =
        ({ s with waiting_users := aset s.waiting_users u.preference (((aget s.waiting_users u.preference).getD []) ++ [conn]) },
         [Event.waiting_for_match conn])) := by
  constructor
  · intro id
    unfold matchPool
    rw [List.mem_filter]
    constructor
    · rintro ⟨hmem, hpred⟩
      refine ⟨hmem, ?_⟩
      cases hid : aget s.users id with
      | none => rw [hid] at hpred; simp at hpred
      | some pm =>
        rw [hid] at hpred
        exact ⟨pm, rfl, (genderOk_iff _ _).mp hpred⟩
    · rintro ⟨hmem, pm, hpm, hok⟩
      refine ⟨hmem, ?_⟩
      rw [hpm]
      exact (genderOk_iff _ _).mpr hok
  · intro hp
    simp [find_match, hu, hp, emit, hs]

/-- Witness for C5 at the concrete state wFive. -/
theorem C5_matchmaking_witness :
    find_match wFive "A" 0 =
      ({ wFive with waiting_users := [("male", ["A"])] },
       [Event.waiting_for_match "A"]) := by
  exact (C5_matchmaking wFive "A" wUserA 0 rfl (by decide)).2 rfl

theorem connect_users_partner_fst (s : ChatServer) (a b : ConnId) (u : User)
    (hab : a ≠ b) (ha : aget s.users a = some u) :
    aget (connect_users s a b).1.users a = some { u with partner_id := some b } := by
  show aget (aupdate (aupdate s.users a _) b _) a = _
  rw [aget_aupdate_ne _ _ _ _ (Ne.symm hab), aget_aupdate_self, ha]
  rfl

theorem connect_users_partner_snd (s : ChatServer) (a b : ConnId) (ub : User)
    (hab : a ≠ b) (hb : aget s.users b = some ub) :
    aget (connect_users s a b).1.users b = some { ub with partner_id := some a } := by
  show aget (aupdate (aupdate s.users a _) b _) b = _
  rw [aget_aupdate_self, aget_aupdate_ne _ _ _ _ hab, hb]
  rfl

/-- C6: when matchmaking finds a nonempty candidate list, find_match pairs
the asker with the randomly indexed candidate b, after which the asker's
partner reference is b and b's is the asker, both ids are gone from every
waiting pool, and each of the two is sent one chat_started notification. -/
theorem C6_pairing (s : ChatServer) (conn : ConnId) (u : User) (r : Nat) (b : ConnId)
    (hu : aget s.users conn = some u)
    (hne : matchPool s u.preference ≠ [])
    (hb : b = (matchPool s u.preference).getD (r % (matchPool s u.preference).length) "")
    (hsa : conn ∈ s.sessions) (hsb : b ∈ s.sessions) (hab : conn ≠ b) :
    find_match s conn r = connect_users s conn b ∧
    (aget (connect_users s conn b).1.users conn).map User.partner_id = some (some b) ∧
    (aget (connect_users s conn b).1.users b).map User.partner_id = some (some conn) ∧
    (∀ pref, conn ∉ (aget (connect_users s conn b).1.waiting_users pref).getD [] ∧
             b ∉ (aget (connect_users s conn b).1.waiting_users pref).getD []) ∧
    (connect_users s conn b).2 =
      [Event.chat_started conn none, Event.chat_started b none] := by
  have hbm : b ∈ matchPool s u.preference := by
    have hi := Nat.mod_lt r (List.length_pos.mpr hne)
    rw [hb, List.getD_eq_getElem _ _ hi]
    exact List.getElem_mem hi
  have hub : ∃ ub, aget s.users b = some ub := by
    have h2 := hbm
    unfold matchPool at h2
    have h3 := (List.mem_filter.mp h2).2
    cases hb2 : aget s.users b with
    | none => rw [hb2] at h3; simp at h3
    | some ub => exact ⟨ub, rfl⟩
  obtain ⟨ub, hub⟩ := hub
  refine ⟨?_, ?_, ?_, ?_, ?_⟩
  · have hempty : (matchPool s u.preference).isEmpty = false :=
      List.isEmpty_eq_false.mpr hne
    simp only [find_match, hu, hempty, Bool.false_eq_true, if_false]
    rw [hb]
  · rw [connect_users_partner_fst s conn b u hab hu]
    rfl
  · rw [connect_users_partner_snd s conn b ub hab hub]
    rfl
  · intro pref
    constructor
    · intro hmem
      exact ((mem_connect_pools s conn b pref conn).mp hmem).2.1 rfl
    · intro hmem
      exact ((mem_connect_pools s conn b pref b).mp hmem).2.2 rfl
  · exact connect_users_events s conn b hsa hsb

/-- Witness for C6 at the concrete state wSix. -/
theorem C6_pairing_witness :
    (connect_users wSix "A" "B").2 =
      [Event.chat_started "A" none, Event.chat_started "B" none] := by
  exact (C6_pairing wSix "A" wUserA 0 "B" rfl (by decide) (by decide)
    (by decide) (by decide) (by decide)).2.2.2.2

/-- C7: when a 1:1 user a partnered with the live user b leaves, the
disconnect cascade emits exactly one partner_disconnected notification and
it goes to b, clears b's partner reference, and leaves b's waiting-pool
membership exactly as it was (in particular b is not re-enqueued). -/
theorem C7_partner_disconnect (s : ChatServer) (a b : ConnId) (u ub : User)
    (ha : aget s.users a = some u) (hrt : u.room_type ≠ "group")
    (hp : u.partner_id = some b)
    (hb : aget s.users b = some ub) (hsb : b ∈ s.sessions) (hab : a ≠ b) :
    (handle_disconnect s a).2 = [Event.partner_disconnected b] ∧
    aget (handle_disconnect s a).1.users b = some { ub with partner_id := none } ∧
    (∀ pref, b ∈ (aget (handle_disconnect s a).1.waiting_users pref).getD [] ↔
             b ∈ (aget s.waiting_users pref).getD []) := by
  have hmain : handle_disconnect s a =
      ({ s with users := aupdate (aerase s.users a) b (fun p => { p with partner_id := none }),
                waiting_users := purgeWaiting s.waiting_users a },
       [Event.partner_disconnected b]) := by
    simp only [handle_disconnect, ha, hp, emit]
    simp [hrt, hsb]
  refine ⟨?_, ?_, ?_⟩
  · rw [hmain]
  · rw [hmain]
    show aget (aupdate (aerase s.users a) b _) b = _
    rw [aget_aupdate_self, aget_aerase_ne _ _ _ hab, hb]
    rfl
  · intro pref
    rw [hmain]
    show b ∈ (aget (purgeWaiting s.waiting_users a) pref).getD [] ↔ _
    rw [mem_purgeWaiting]
    exact ⟨fun h => h.1, fun h => ⟨h, Ne.symm hab⟩⟩

/-- Witness for C7 at the concrete state wSeven. -/
theorem C7_partner_disconnect_witness :
    (handle_disconnect wSeven "A").2 = [Event.partner_disconnected "B"] := by
  exact (C7_partner_disconnect wSeven "A" "B"
    { wUserA with partner_id := some "B" } { wUserB with partner_id := some "A" }
    rfl (by decide) rfl rfl (by decide) (by decide)).1

/-- C8: for a registered joined caller, join-by-code with an unknown code
sends the caller exactly one group_not_found and leaves the coordinator
state unchanged; with a known code the caller is appended to the member
and name lists, every member of the extended group is sent the updated
membership snapshot, user_joined_group goes to every member but the
caller, and the caller gets chat_started carrying the code. -/
theorem C8_join_by_code (s : ChatServer) (conn : ConnId) (u : User) (code : String)
    (hu : aget s.users conn = some u) (hs : conn ∈ s.sessions) :
    (aget s.groups code = none →
      join_group_by_code s conn code = (s, [Event.group_not_found conn])) ∧
    (∀ g, aget s.groups code = some g →
      (∀ m ∈ g.members ++ [conn], m ∈ s.sessions) →
      join_group_by_code s conn code =
        ({ s with groups := aset s.groups code { g with members := g.members ++ [conn], usernames := g.usernames ++ [u.username] },
                  users := aupdate s.users conn (fun v => { v with group_id := some code }) },
         ((g.members ++ [conn]).flatMap fun m =>
            Event.group_members_update m (g.usernames ++ [u.username]) ::
            (if m ≠ conn then [Event.user_joined_group m u.username] else [])) ++
         [Event.chat_started conn (some code)])) := by
  constructor
  · intro hnone
    simp [join_group_by_code, hnone, emit, hs]
  · intro g hg hmem
    simp only [join_group_by_code, hg, hu]
    rw [flatMap_sessions_all _ _ hmem]
    simp [emit, hs]

/-- Witness for C8 at the concrete state wEight and the unknown code ZZZZ. -/
theorem C8_join_by_code_witness :
    join_group_by_code wEight "A" "ZZZZ" = (wEight, [Event.group_not_found "A"]) := by
  exact (C8_join_by_code wEight "A" wUserA "ZZZZ" rfl (by decide)).1 rfl

/-- C9: a 1:1 message goes to exactly the sender's current partner and to
nobody else; with no partner it is a silent no-op.  A group message with
unresolvable target (no override and no own group, or a code naming no
live group) is a silent no-op; with a resolved live group it goes to
every member other than the sender, exactly once each, and the state is
untouched in all cases. -/
theorem C9_send_message (s : ChatServer) (conn : ConnId) (u : User)
    (msg : EncryptedMessage) (hu : aget s.users conn = some u) :
    (∀ pid, u.partner_id = some pid → pid ∈ s.sessions →
      sendMessage s conn msg false none =
        (s, [Event.receive_message pid msg u.username])) ∧
    (u.partner_id = none → sendMessage s conn msg false none = (s, [])) ∧
    (∀ gc : Option String, gc.or u.group_id = none →
      sendMessage s conn msg true gc = (s, [])) ∧
    (∀ (gc : Option String) (gid : String), gc.or u.group_id = some gid →
      aget s.groups gid = none → sendMessage s conn msg true gc = (s, [])) ∧
    (∀ (gc : Option String) (gid : String) (g : Group),
      gc.or u.group_id = some gid → aget s.groups gid = some g →
      (∀ m ∈ g.members, m ∈ s.sessions) → g.members.Nodup →
      (sendMessage s conn msg true gc =
        (s, (g.members.filter fun m => m != conn).map
            (fun m => Event.receive_message m msg u.username)) ∧
       ∀ m ∈ g.members, m ≠ conn →
         (sendMessage s conn msg true gc).2.count
           (Event.receive_message m msg u.username) = 1)) := by
  refine ⟨?_, ?_, ?_, ?_, ?_⟩
  · intro pid hpid hsess
    simp [sendMessage, hu, hpid, emit, hsess]
  · intro hpid
    simp [sendMessage, hu, hpid]
  · intro gc hres
    simp [sendMessage, hu, hres]
  · intro gc gid hres hg
    simp [sendMessage, hu, hres, hg]
  · intro gc gid g hres hg hsess hnd
    have hev : sendMessage s conn msg true gc =
        (s, (g.members.filter fun m => m != conn).map
            (fun m => Event.receive_message m msg u.username)) := by
      simp only [sendMessage, hu, hres, hg, emit]
      rw [flatMap_deliver g.members conn _ hsess]
      exact if_pos trivial
    refine ⟨hev, ?_⟩
    intro m hm hmne
    rw [hev]
    have hinj : Function.Injective
        (fun x : ConnId => Event.receive_message x msg u.username) := by
      intro x y hxy
      simpa using hxy
    have hcnt := List.count_map_of_injective (x := m)
      (g.members.filter fun x => x != conn)
      (fun x : ConnId => Event.receive_message x msg u.username) hinj
    simp only [hcnt]
    exact List.count_eq_one_of_mem (hnd.filter _)
      (List.mem_filter.mpr ⟨hm, by simp [hmne]⟩)

/-- Witness for C9 at the concrete state wNine. -/
theorem C9_send_message_witness :
    sendMessage wNine "A" wMsg false none =
      (wNine, [Event.receive_message "B" wMsg "alice"]) := by
  exact (C9_send_message wNine "A" { wUserA with partner_id := some "B" }
    wMsg rfl).1 "B" rfl (by decide)

/-- C10: in group mode the explicit group-code override wins over the
sender's own membership, so a joined user who is not a member of group
code's group still has the message delivered to every member of that
group. -/
theorem C10_group_override (s : ChatServer) (conn : ConnId) (u : User)
    (msg : EncryptedMessage) (code : String) (g : Group)
    (hu : aget s.users conn = some u) (hg : aget s.groups code = some g)
    (hnm : conn ∉ g.members) (hsm : ∀ m ∈ g.members, m ∈ s.sessions) :
    sendMessage s conn msg true (some code) =
      (s, g.members.map fun m => Event.receive_message m msg u.username) := by
  have hres : (some code).or u.group_id = some code := rfl
  have hf : g.members.filter (fun m => m != conn) = g.members :=
    List.filter_eq_self.mpr (fun x hx => by
      simp only [bne_iff_ne, ne_eq]
      intro hxc
      exact hnm (hxc ▸ hx))
  simp only [sendMessage, hu, hres, hg, emit]
  rw [flatMap_deliver g.members conn _ hsm, hf]
  exact if_pos trivial

/-- Witness for C10 at the concrete state wTen. -/
theorem C10_group_override_witness :
    sendMessage wTen "A" wMsg true (some "GGG") =
      (wTen, [Event.receive_message "B" wMsg "alice",
              Event.receive_message "C" wMsg "alice"]) := by
  exact C10_group_override wTen "A" wUserA wMsg "GGG"
    { code := "GGG", members := ["B", "C"], usernames := ["bob", "carol"] }
    rfl rfl (by decide) (by decide)

end Omegle

